import Mathlib

/-!
# bvtest: a rank/select micro-benchmark harness

A shallow embedding of `src/bvtest.cpp` and the properties of its benchmark
protocol.

* `size_t` values are natural numbers; `add64` and `sub64` wrap at `2 ^ 64`.
* `double` values are read in exact arithmetic, as rationals.
* The compile-time macros `QUERIES` and `N` are the two fields of `Params`;
  `production` holds the values of the source.
* Everything outside the file is a field of `Env`: the rendering of a
  `double` by `operator<<`, the clock, the random sources and the four
  bit-vector libraries.
* Standard output is the list of texts written, one per output statement.
-/

namespace Bvtest

/-! ## Machine words -/

/-- Number of distinct `size_t` values. -/
def U64 : Nat := 2 ^ 64

/-- Unsigned 64-bit addition. -/
def add64 (a b : Nat) : Nat := (a + b) % U64

/-- Unsigned 64-bit subtraction. -/
def sub64 (a b : Nat) : Nat := (a % U64 + (U64 - b % U64)) % U64

/-! ## Compile-time constants -/

/-- The macros `QUERIES` and `N`. -/
structure Params where
  QUERIES : Nat
  N : Nat

/-- Values of the macros in the source: `QUERIES = 1000000`, `N = 10000000`. -/
def production : Params := ⟨1000000, 10000000⟩

/-- The macro `FILL`, the literal `0.1`. -/
def FILL : ℚ := 1 / 10

/-! ## Timer -/

/-- The type `timespec`. -/
structure Time where
  tv_sec : Int
  tv_nsec : Int
deriving DecidableEq, Repr

/-- `duration(a, b)`:
`1000 * (a.tv_sec - b.tv_sec) + 1e-6 * (a.tv_nsec - b.tv_nsec)`. -/
def duration (a b : Time) : ℚ :=
  1000 * ((a.tv_sec - b.tv_sec : Int) : ℚ) + (1 / 1000000) * ((a.tv_nsec - b.tv_nsec : Int) : ℚ)

/-- A normalised timestamp has its nanoseconds in `[0, 10^9)`. -/
def Time.normalised (a : Time) : Prop := 0 ≤ a.tv_nsec ∧ a.tv_nsec < 1000000000

/-- The timestamp `b` is not earlier than `a`. -/
def Time.le (a b : Time) : Prop :=
  a.tv_sec < b.tv_sec ∨ (a.tv_sec = b.tv_sec ∧ a.tv_nsec ≤ b.tv_nsec)

/-- A monotonic clock: every reading is normalised and no reading is earlier
than the one before it. -/
def MonotonicClock (clock : Nat → Time) : Prop :=
  ∀ k, (clock k).normalised ∧ (clock k).le (clock (k + 1))

/-! ## External collaborators -/

/-- A built `bm::bvector<>` together with its rs-index: `rank` is
`bv.rank(n, rs)`, `select k` is the value `bv.select(k, s, rs)` leaves in `s`,
`memory_used` is the field of `calc_stat`. -/
structure BmVector where
  rank : Nat → Nat
  select : Nat → Nat
  memory_used : Nat

/-- A built `dyn::succinct_bitvector<dyn::succinct_spsi>`. -/
structure DynVector where
  rank : Nat → Nat
  select : Nat → Nat
  bit_size : Nat

/-- A built `sdsl::sd_vector` with its `rank_support_sd` and
`select_support_sd`. -/
structure SdVector where
  rank : Nat → Nat
  select : Nat → Nat

/-- A built `la_vector_opt<size_t>`. -/
structure LaVector where
  rank : Nat → Nat
  select : Nat → Nat
  size_in_bytes : Nat

/-- Everything the program takes from outside.
* `fmt x` is the text `std::cout << x` writes for a `double`;
* `clock k` is the timestamp stored by the `k`-th call of `clock_gettime`;
* `unif i` is the `i`-th draw of `uniform_real_distribution<double>(0.0, 1.0)`
  bound to a default-constructed engine;
* `sample lo hi i` is the `i`-th draw of
  `uniform_int_distribution<size_t>(lo, hi)` bound to a default-constructed
  engine;
* `bm`, `dyn`, `sd`, `la` are the structures the libraries build from what the
  drivers feed them. -/
structure Env where
  fmt : ℚ → String
  clock : Nat → Time
  unif : Nat → ℚ
  sample : Nat → Nat → Nat → Nat
  bm : List Bool → BmVector
  dyn : List Bool → DynVector
  sd : Nat → Nat → List Nat → SdVector
  la : List Nat → LaVector

/-! ## Program state -/

/-- Record of a function of the program being entered. -/
inductive Call where
  | gen_bits
  | test_sdvec (bits : List Bool)
  | test_dyn_succ (bits : List Bool)
  | test_bm (bits : List Bool)
  | test_la (bits : List Bool)
deriving DecidableEq, Repr

/-- Observable state: the texts written to `std::cout`, the number of
`clock_gettime` calls made, and the functions entered so far. -/
structure State where
  out : List String
  ticks : Nat
  calls : List Call
deriving DecidableEq, Repr

/-- State at process start. -/
def State.init : State := ⟨[], 0, []⟩

/-- One output statement. -/
def State.write (st : State) (text : String) : State :=
  { st with out := st.out ++ [text] }

/-- Entering a function. -/
def State.enter (st : State) (c : Call) : State :=
  { st with calls := st.calls ++ [c] }

/-- The call `clock_gettime(CLOCK_PROCESS_CPUTIME_ID, &t)`. -/
def clock_gettime (E : Env) (st : State) : Time × State :=
  (E.clock st.ticks, { st with ticks := st.ticks + 1 })

/-! ## Result emitter -/

/-- Text written by `print_result_line`. -/
def print_result_line (P : Params) (fmt : ℚ → String) (ds : String) (rank_ms select_ms : ℚ)
    (bytes rank_checksum select_checksum : Nat) : String :=
  "RESULT ds=" ++ ds ++ " num_queries=" ++ toString P.QUERIES ++ " num_bits=" ++ toString P.N
    ++ " fill_rate=" ++ fmt FILL
    ++ " rank=" ++ fmt rank_ms ++ " select=" ++ fmt select_ms ++ " space=" ++ toString bytes
    ++ " rank_checksum=" ++ toString rank_checksum
    ++ " select_checksum=" ++ toString select_checksum ++ "\n"

/-- A text is a RESULT line when it starts with the literal `RESULT` and a
space. -/
def is_result_line (text : String) : Bool :=
  List.isPrefixOf "RESULT ".data text.data

/-! ## Bit generator -/

/-- The function `gen_bits`: position `i` is set when the `i`-th uniform draw
is at most `FILL`. -/
def gen_bits (E : Env) (P : Params) : List Bool :=
  (List.range P.N).map (fun i => decide (E.unif i ≤ FILL))

/-! ## Query loops -/

/-- The loop `for (size_t i = 0; i < n; i++) body`. -/
def for_loop {σ : Type} (n : Nat) (body : Nat → σ → σ) (init : σ) : σ :=
  match n with
  | 0 => init
  | k + 1 => body k (for_loop k body init)

/-- A checksum accumulator, with the record of the invocations made on the
structure under test: the argument passed and the value returned. -/
structure Acc where
  checksum : Nat
  calls : List (Nat × Nat)
deriving DecidableEq, Repr

/-- The initialiser `checksum = 0`. -/
def Acc.zero : Acc := ⟨0, []⟩

/-- The statement `checksum += op(arg)`. -/
def Acc.query (a : Acc) (op : Nat → Nat) (arg : Nat) : Acc :=
  ⟨add64 a.checksum (op arg), a.calls ++ [(arg, op arg)]⟩

/-- The accumulator `a` is the outcome of `n` invocations of `op`: one record
per invocation, each holding the value `op` returned for its argument, and the
checksum is the sum of the returned values modulo `2 ^ 64`. -/
def Acc.Sums (a : Acc) (n : Nat) (op : Nat → Nat) : Prop :=
  a.calls.length = n ∧ (∀ c ∈ a.calls, c.2 = op c.1) ∧
    a.checksum = (0 + (a.calls.map Prod.snd).sum) % U64

/-- Local variables of a driver when it calls `print_result_line`. -/
structure Locals where
  ds : String
  rank_ms : ℚ
  select_ms : ℚ
  bytes : Nat
  rank : Acc
  select : Acc

/-- The call `print_result_line(ds, rank_ms, select_ms, bytes, rank_checksum,
select_checksum)` of a driver. -/
def Locals.line (P : Params) (E : Env) (r : Locals) : String :=
  print_result_line P E.fmt r.ds r.rank_ms r.select_ms r.bytes r.rank.checksum r.select.checksum

/-- The reads `bits[0], ..., bits[n - 1]`. -/
def bits_upto (n : Nat) (bits : List Bool) : List Bool :=
  (List.range n).map (fun i => bits.getD i false)

/-- The positions `i < bits.size()` with `bits[i]` set, in increasing order. -/
def ones_positions (bits : List Bool) : List Nat :=
  (List.range bits.length).filter (fun i => bits.getD i false)

/-! ## Driver for BitMagic -/

/-- Build phase of `test_bm`: `resize(N)`, `set(i, bits[i])` for `i < N`,
`optimize`, `freeze`, `build_rs_index`. -/
def test_bm.build (E : Env) (P : Params) (bits : List Bool) : BmVector :=
  E.bm (bits_upto P.N bits)

/-- Rank sampler of `test_bm`: `uniform_int_distribution<size_t>(0, N - 1)`. -/
def test_bm.rank_gen (E : Env) (P : Params) (i : Nat) : Nat :=
  E.sample 0 (sub64 P.N 1) i

/-- Rank loop of `test_bm`: `rank_checksum += bv.rank(gen(), rs)`. -/
def test_bm.rank_loop (E : Env) (P : Params) (bv : BmVector) : Acc :=
  for_loop P.QUERIES (fun i a => a.query bv.rank (test_bm.rank_gen E P i)) Acc.zero

/-- The constant `num_ones = bv.rank(bits.size(), rs) - 1` of `test_bm`. -/
def test_bm.num_ones (bv : BmVector) (bits : List Bool) : Nat :=
  sub64 (bv.rank bits.length) 1

/-- Select sampler of `test_bm`:
`uniform_int_distribution<size_t>(1, num_ones)`. -/
def test_bm.select_gen (E : Env) (bv : BmVector) (bits : List Bool) (i : Nat) : Nat :=
  E.sample 1 (test_bm.num_ones bv bits) i

/-- Select loop of `test_bm`: `bv.select(gen(), s, rs); select_checksum += s`. -/
def test_bm.select_loop (E : Env) (P : Params) (bv : BmVector) (bits : List Bool) : Acc :=
  for_loop P.QUERIES (fun i a => a.query bv.select (test_bm.select_gen E bv bits i)) Acc.zero

/-- Body of `test_bm` up to its call of `print_result_line`. -/
def test_bm.locals (E : Env) (P : Params) (bits : List Bool) (st : State) : Locals × State :=
  let bv := test_bm.build E P bits
  let (now, st) := clock_gettime E st
  let rank := test_bm.rank_loop E P bv
  let (thn, st) := clock_gettime E st
  let rank_ms := duration thn now
  let (now, st) := clock_gettime E st
  let select := test_bm.select_loop E P bv bits
  let (thn, st) := clock_gettime E st
  let select_ms := duration thn now
  let bytes := bv.memory_used
  (⟨"bitmagic", rank_ms, select_ms, bytes, rank, select⟩, st)

/-- The function `test_bm`. -/
def test_bm (E : Env) (P : Params) (bits : List Bool) (st : State) : State :=
  let (r, st) := test_bm.locals E P bits (st.enter (Call.test_bm bits))
  st.write (r.line P E)

/-! ## Driver for DYNAMIC -/

/-- Build phase of `test_dyn_succ`: `push_back(bits[i])` for `i < N`. -/
def test_dyn_succ.build (E : Env) (P : Params) (bits : List Bool) : DynVector :=
  E.dyn (bits_upto P.N bits)

/-- Rank sampler of `test_dyn_succ`. -/
def test_dyn_succ.rank_gen (E : Env) (P : Params) (i : Nat) : Nat :=
  E.sample 0 (sub64 P.N 1) i

/-- Rank loop of `test_dyn_succ`: `rank_checksum += bv.rank(gen() + 1)`. -/
def test_dyn_succ.rank_loop (E : Env) (P : Params) (bv : DynVector) : Acc :=
  for_loop P.QUERIES (fun i a => a.query bv.rank (add64 (test_dyn_succ.rank_gen E P i) 1)) Acc.zero

/-- The constant `num_ones = bv.rank(bits.size()) - 1` of `test_dyn_succ`. -/
def test_dyn_succ.num_ones (bv : DynVector) (bits : List Bool) : Nat :=
  sub64 (bv.rank bits.length) 1

/-- Select sampler of `test_dyn_succ`. -/
def test_dyn_succ.select_gen (E : Env) (bv : DynVector) (bits : List Bool) (i : Nat) : Nat :=
  E.sample 1 (test_dyn_succ.num_ones bv bits) i

/-- Select loop of `test_dyn_succ`: `select_checksum += bv.select(gen() - 1)`. -/
def test_dyn_succ.select_loop (E : Env) (P : Params) (bv : DynVector) (bits : List Bool) : Acc :=
  for_loop P.QUERIES
    (fun i a => a.query bv.select (sub64 (test_dyn_succ.select_gen E bv bits i) 1)) Acc.zero

/-- Body of `test_dyn_succ` up to its call of `print_result_line`. -/
def test_dyn_succ.locals (E : Env) (P : Params) (bits : List Bool) (st : State) :
    Locals × State :=
  let bv := test_dyn_succ.build E P bits
  let (now, st) := clock_gettime E st
  let rank := test_dyn_succ.rank_loop E P bv
  let (thn, st) := clock_gettime E st
  let rank_ms := duration thn now
  let (now, st) := clock_gettime E st
  let select := test_dyn_succ.select_loop E P bv bits
  let (thn, st) := clock_gettime E st
  let select_ms := duration thn now
  let bytes := bv.bit_size / 8
  (⟨"dynsucc", rank_ms, select_ms, bytes, rank, select⟩, st)

/-- The function `test_dyn_succ`. -/
def test_dyn_succ (E : Env) (P : Params) (bits : List Bool) (st : State) : State :=
  let (r, st) := test_dyn_succ.locals E P bits (st.enter (Call.test_dyn_succ bits))
  st.write (r.line P E)

/-! ## Driver for SDSL -/

/-- The count `one_count` of `test_sdvec`. -/
def test_sdvec.one_count (bits : List Bool) : Nat :=
  (bits.filter (fun i => i)).length

/-- Build phase of `test_sdvec`: `sd_vector_builder(bits.size(), one_count)`,
`set(i)` for every set position, then the rank and select supports. -/
def test_sdvec.build (E : Env) (bits : List Bool) : SdVector :=
  E.sd bits.length (test_sdvec.one_count bits) (ones_positions bits)

/-- Rank sampler of `test_sdvec`. -/
def test_sdvec.rank_gen (E : Env) (P : Params) (i : Nat) : Nat :=
  E.sample 0 (sub64 P.N 1) i

/-- Rank loop of `test_sdvec`: `rank_checksum += rnk.rank(gen() + 1)`. -/
def test_sdvec.rank_loop (E : Env) (P : Params) (bv : SdVector) : Acc :=
  for_loop P.QUERIES (fun i a => a.query bv.rank (add64 (test_sdvec.rank_gen E P i) 1)) Acc.zero

/-- The constant `num_ones = rnk.rank(bits.size()) - 1` of `test_sdvec`. -/
def test_sdvec.num_ones (bv : SdVector) (bits : List Bool) : Nat :=
  sub64 (bv.rank bits.length) 1

/-- Select sampler of `test_sdvec`. -/
def test_sdvec.select_gen (E : Env) (bv : SdVector) (bits : List Bool) (i : Nat) : Nat :=
  E.sample 1 (test_sdvec.num_ones bv bits) i

/-- Select loop of `test_sdvec`: `select_checksum += sel.select(gen())`. -/
def test_sdvec.select_loop (E : Env) (P : Params) (bv : SdVector) (bits : List Bool) : Acc :=
  for_loop P.QUERIES (fun i a => a.query bv.select (test_sdvec.select_gen E bv bits i)) Acc.zero

/-- The informational line `n: <bits.size()>, m: <one_count>` of `test_sdvec`. -/
def test_sdvec.info (bits : List Bool) : String :=
  "n: " ++ toString bits.length ++ ", m: " ++ toString (test_sdvec.one_count bits) ++ "\n"

/-- Body of `test_sdvec` up to its call of `print_result_line`; `bytes` keeps
its initial value `0`. -/
def test_sdvec.locals (E : Env) (P : Params) (bits : List Bool) (st : State) :
    Locals × State :=
  let bytes := 0
  let st := st.write (test_sdvec.info bits)
  let bv := test_sdvec.build E bits
  let (now, st) := clock_gettime E st
  let rank := test_sdvec.rank_loop E P bv
  let (thn, st) := clock_gettime E st
  let rank_ms := duration thn now
  let (now, st) := clock_gettime E st
  let select := test_sdvec.select_loop E P bv bits
  let (thn, st) := clock_gettime E st
  let select_ms := duration thn now
  (⟨"sdvector", rank_ms, select_ms, bytes, rank, select⟩, st)

/-- The function `test_sdvec`. -/
def test_sdvec (E : Env) (P : Params) (bits : List Bool) (st : State) : State :=
  let (r, st) := test_sdvec.locals E P bits (st.enter (Call.test_sdvec bits))
  st.write (r.line P E)

/-! ## Driver for la_vector -/

/-- Build phase of `test_la`: the vector `a` of set positions, then
`la_vector_opt<size_t> bv(a)`. -/
def test_la.build (E : Env) (bits : List Bool) : LaVector :=
  E.la (ones_positions bits)

/-- Rank sampler of `test_la`. -/
def test_la.rank_gen (E : Env) (P : Params) (i : Nat) : Nat :=
  E.sample 0 (sub64 P.N 1) i

/-- Rank loop of `test_la`: `rank_checksum += bv.rank(gen() + 1)`. -/
def test_la.rank_loop (E : Env) (P : Params) (bv : LaVector) : Acc :=
  for_loop P.QUERIES (fun i a => a.query bv.rank (add64 (test_la.rank_gen E P i) 1)) Acc.zero

/-- The constant `num_ones = bv.rank(bits.size()) - 1` of `test_la`. -/
def test_la.num_ones (bv : LaVector) (bits : List Bool) : Nat :=
  sub64 (bv.rank bits.length) 1

/-- Select sampler of `test_la`. -/
def test_la.select_gen (E : Env) (bv : LaVector) (bits : List Bool) (i : Nat) : Nat :=
  E.sample 1 (test_la.num_ones bv bits) i

/-- Select loop of `test_la`: `select_checksum += bv.select(gen())`. -/
def test_la.select_loop (E : Env) (P : Params) (bv : LaVector) (bits : List Bool) : Acc :=
  for_loop P.QUERIES (fun i a => a.query bv.select (test_la.select_gen E bv bits i)) Acc.zero

/-- Body of `test_la` up to its call of `print_result_line`. -/
def test_la.locals (E : Env) (P : Params) (bits : List Bool) (st : State) : Locals × State :=
  let bv := test_la.build E bits
  let (now, st) := clock_gettime E st
  let rank := test_la.rank_loop E P bv
  let (thn, st) := clock_gettime E st
  let rank_ms := duration thn now
  let (now, st) := clock_gettime E st
  let select := test_la.select_loop E P bv bits
  let (thn, st) := clock_gettime E st
  let select_ms := duration thn now
  let bytes := bv.size_in_bytes
  (⟨"la_vector", rank_ms, select_ms, bytes, rank, select⟩, st)

/-- The function `test_la`. -/
def test_la (E : Env) (P : Params) (bits : List Bool) (st : State) : State :=
  let (r, st) := test_la.locals E P bits (st.enter (Call.test_la bits))
  st.write (r.line P E)

/-! ## Main -/

/-- The banner `Starting benchmarks, <QUERIES> each...`. -/
def banner (P : Params) : String :=
  "Starting benchmarks, " ++ toString P.QUERIES ++ " each...\n"

/-- The statement `std::cout << argv[0] << "takes no arguments.\n"`. The
pointer `argv[0]` is the program name, or null (`none`) as it is when
`argc = 0`; inserting a null `char*` leaves the stream failed, so neither
insertion writes anything. -/
def write_diagnostic (argv0 : Option String) (st : State) : State :=
  match argv0 with
  | some name => st.write (name ++ "takes no arguments.\n")
  | none => st

/-- The function `main`, started in `State.init`; `argv0` is `argv[0]`. The
result is the exit status and the final state. -/
def main (E : Env) (P : Params) (argc : Int) (argv0 : Option String) : Int × State :=
  if argc ≠ 1 then
    (1, write_diagnostic argv0 State.init)
  else
    let bits := gen_bits E P
    let st := State.init.enter Call.gen_bits
    let st := st.write (banner P)
    let st := test_sdvec E P bits st
    let st := test_dyn_succ E P bits st
    let st := test_bm E P bits st
    let st := test_la E P bits st
    (0, st)

/-! ## Reference semantics of rank and select -/

/-- Number of set bits of `B`. -/
def ones (B : List Bool) : Nat := B.count true

/-- Reference rank: the number of set bits at positions strictly below `i`. -/
def rank1 (B : List Bool) (i : Nat) : Nat := (B.take i).count true

/-- Reference select: the position of the `k`-th set bit, `k` counted from 1. -/
def select1 : List Bool → Nat → Nat
  | [], _ => 0
  | true :: bs, k => if k ≤ 1 then 0 else select1 bs (k - 1) + 1
  | false :: bs, k => select1 bs k + 1

/-! ## Conventions of the external collaborators -/

/-- Contract of `uniform_int_distribution(lo, hi)`: with `lo ≤ hi` every draw
lies in `[lo, hi]`. -/
def SamplerInRange (sample : Nat → Nat → Nat → Nat) : Prop :=
  ∀ lo hi i, lo ≤ hi → lo ≤ sample lo hi i ∧ sample lo hi i ≤ hi

/-- Half-open rank convention: `rank i` counts the set bits in `[0, i)`, for
`i` in `[0, N]`. -/
def HalfOpenRank (rank : Nat → Nat) (B : List Bool) : Prop :=
  ∀ i, i ≤ B.length → rank i = rank1 B i

/-- Inclusive rank convention: `rank i` counts the set bits in `[0, i]`. -/
def InclusiveRank (rank : Nat → Nat) (B : List Bool) : Prop :=
  ∀ i, rank i = rank1 B (i + 1)

/-- One-based select convention: for `k` in `[1, m]`, `select k` is the
position of the `k`-th set bit. -/
def OneBasedSelect (select : Nat → Nat) (B : List Bool) : Prop :=
  ∀ k, k ≤ ones B → 1 ≤ k → select k = select1 B k

/-- Zero-based select convention: for `j` in `[0, m - 1]`, `select j` is the
position of the `(j + 1)`-th set bit. -/
def ZeroBasedSelect (select : Nat → Nat) (B : List Bool) : Prop :=
  ∀ j, j < ones B → select j = select1 B (j + 1)

/-- The structures the four drivers build from `B` follow the conventions of
their libraries, and the samplers keep their range. -/
structure Conventions (E : Env) (P : Params) (B : List Bool) : Prop where
  sampler : SamplerInRange E.sample
  bm_rank : InclusiveRank (test_bm.build E P B).rank B
  bm_select : OneBasedSelect (test_bm.build E P B).select B
  dyn_rank : HalfOpenRank (test_dyn_succ.build E P B).rank B
  dyn_select : ZeroBasedSelect (test_dyn_succ.build E P B).select B
  sd_rank : HalfOpenRank (test_sdvec.build E B).rank B
  sd_select : OneBasedSelect (test_sdvec.build E B).select B
  la_rank : HalfOpenRank (test_la.build E B).rank B
  la_select : OneBasedSelect (test_la.build E B).select B

/-- Small parameters: four queries over eight bits. -/
def tiny : Params := ⟨4, 8⟩

/-- A rendering of doubles for the small environment. -/
def demo_fmt (x : ℚ) : String :=
  if x = FILL then "0.1" else if x.den = 1 then toString x.num else "0.5"

/-- The draws of the small environment: a fixed walk through `[lo, hi]`. -/
def demo_sample (lo hi i : Nat) : Nat := lo + (3 * i + 1) % (hi - lo + 1)

/-- A concrete environment: the four structures answer by counting, each in
its own convention; the clock advances by a quarter of a second per reading. -/
def demo : Env where
  fmt := demo_fmt
  clock := fun k => ⟨(k / 4 : Nat), (250000000 * (k % 4) : Nat)⟩
  unif := fun i => if i % 3 = 0 then 0 else 1
  sample := demo_sample
  bm := fun bits => ⟨fun n => rank1 bits (n + 1), select1 bits, bits.length / 8 + 64⟩
  dyn := fun bits => ⟨rank1 bits, fun j => select1 bits (j + 1), 2 * bits.length + 64⟩
  sd := fun _ _ pos => ⟨fun i => pos.countP (fun p => decide (p < i)), fun k => pos.getD (k - 1) 0⟩
  la := fun pos =>
    ⟨fun x => pos.countP (fun p => decide (p < x)), fun k => pos.getD (k - 1) 0, 8 * pos.length + 16⟩

/-- The bit sequence `1001 0010`. -/
def demo_bits : List Bool := [true, false, false, true, false, false, true, false]

/-- Eight clear bits. -/
def zero_bits : List Bool := [false, false, false, false, false, false, false, false]


/-! ## Machine words: facts -/

theorem sub64_one_of_pos (a : Nat) (h1 : 1 ≤ a) (h2 : a < U64) : sub64 a 1 = a - 1 := by
  unfold sub64 U64 at *
  omega

theorem sub64_zero_one : sub64 0 1 = U64 - 1 := by
  unfold sub64 U64
  omega

theorem add64_one_of_lt (a : Nat) (h : a + 1 < U64) : add64 a 1 = a + 1 := by
  unfold add64 U64 at *
  omega

/-! ## Query loops: facts -/

theorem query_loop_calls (n : Nat) (op arg : Nat → Nat) :
    (for_loop n (fun i a => Acc.query a op (arg i)) Acc.zero).calls
      = (List.range n).map (fun i => (arg i, op (arg i))) := by
  induction n with
  | zero => rfl
  | succ k ih =>
    change (for_loop k (fun i a => Acc.query a op (arg i)) Acc.zero).calls
      ++ [(arg k, op (arg k))] = _
    rw [ih, List.range_succ, List.map_append]
    rfl

theorem query_loop_checksum (n : Nat) (op arg : Nat → Nat) :
    (for_loop n (fun i a => Acc.query a op (arg i)) Acc.zero).checksum
      = ((List.range n).map (fun i => op (arg i))).sum % U64 := by
  induction n with
  | zero => simp [for_loop, Acc.zero, U64]
  | succ k ih =>
    change ((for_loop k (fun i a => Acc.query a op (arg i)) Acc.zero).checksum
      + op (arg k)) % U64 = _
    rw [ih, List.range_succ, List.map_append, List.sum_append, Nat.mod_add_mod]
    simp

theorem query_loop_sums (n : Nat) (op arg : Nat → Nat) :
    (for_loop n (fun i a => Acc.query a op (arg i)) Acc.zero).Sums n op := by
  refine ⟨?_, ?_, ?_⟩
  · simp [query_loop_calls]
  · intro c hc
    rw [query_loop_calls] at hc
    obtain ⟨i, -, rfl⟩ := List.mem_map.1 hc
    rfl
  · rw [query_loop_checksum, query_loop_calls, List.map_map, Nat.zero_add]
    rfl

/-! ## Drivers: the locals at the call of the emitter -/

theorem test_bm_locals_eq (E : Env) (P : Params) (bits : List Bool) (st : State) :
    test_bm.locals E P bits st =
      (⟨"bitmagic", duration (E.clock (st.ticks + 1)) (E.clock st.ticks),
        duration (E.clock (st.ticks + 3)) (E.clock (st.ticks + 2)),
        (test_bm.build E P bits).memory_used,
        test_bm.rank_loop E P (test_bm.build E P bits),
        test_bm.select_loop E P (test_bm.build E P bits) bits⟩,
       { st with ticks := st.ticks + 4 }) := rfl

theorem test_dyn_succ_locals_eq (E : Env) (P : Params) (bits : List Bool) (st : State) :
    test_dyn_succ.locals E P bits st =
      (⟨"dynsucc", duration (E.clock (st.ticks + 1)) (E.clock st.ticks),
        duration (E.clock (st.ticks + 3)) (E.clock (st.ticks + 2)),
        (test_dyn_succ.build E P bits).bit_size / 8,
        test_dyn_succ.rank_loop E P (test_dyn_succ.build E P bits),
        test_dyn_succ.select_loop E P (test_dyn_succ.build E P bits) bits⟩,
       { st with ticks := st.ticks + 4 }) := rfl

theorem test_sdvec_locals_eq (E : Env) (P : Params) (bits : List Bool) (st : State) :
    test_sdvec.locals E P bits st =
      (⟨"sdvector", duration (E.clock (st.ticks + 1)) (E.clock st.ticks),
        duration (E.clock (st.ticks + 3)) (E.clock (st.ticks + 2)),
        0,
        test_sdvec.rank_loop E P (test_sdvec.build E bits),
        test_sdvec.select_loop E P (test_sdvec.build E bits) bits⟩,
       { st with out := st.out ++ [test_sdvec.info bits], ticks := st.ticks + 4 }) := rfl

theorem test_la_locals_eq (E : Env) (P : Params) (bits : List Bool) (st : State) :
    test_la.locals E P bits st =
      (⟨"la_vector", duration (E.clock (st.ticks + 1)) (E.clock st.ticks),
        duration (E.clock (st.ticks + 3)) (E.clock (st.ticks + 2)),
        (test_la.build E bits).size_in_bytes,
        test_la.rank_loop E P (test_la.build E bits),
        test_la.select_loop E P (test_la.build E bits) bits⟩,
       { st with ticks := st.ticks + 4 }) := rfl

/-! ## Timer: facts -/

theorem duration_as_nanoseconds (a b : Time) :
    duration a b
      = ((1000000000 * (a.tv_sec - b.tv_sec) + (a.tv_nsec - b.tv_nsec) : Int) : ℚ) / 1000000 := by
  unfold duration
  push_cast
  ring

theorem duration_nonneg_of_le (a b : Time) (ha : a.normalised) (hb : b.normalised)
    (h : b.le a) : 0 ≤ duration a b := by
  rw [duration_as_nanoseconds]
  apply div_nonneg _ (by norm_num)
  have hz : (0 : Int) ≤ 1000000000 * (a.tv_sec - b.tv_sec) + (a.tv_nsec - b.tv_nsec) := by
    unfold Time.normalised at ha hb
    unfold Time.le at h
    omega
  exact_mod_cast hz

theorem duration_clock_nonneg (clock : Nat → Time) (h : MonotonicClock clock) (k : Nat) :
    0 ≤ duration (clock (k + 1)) (clock k) :=
  duration_nonneg_of_le _ _ (h (k + 1)).1 (h k).1 (h k).2


/-! ## Reference rank and select: facts -/

theorem ones_cons (b : Bool) (bs : List Bool) :
    ones (b :: bs) = (if b then 1 else 0) + ones bs := by
  cases b <;> simp [ones, Nat.add_comm]

theorem rank1_zero (B : List Bool) : rank1 B 0 = 0 := by
  simp [rank1]

theorem rank1_cons_succ (b : Bool) (bs : List Bool) (i : Nat) :
    rank1 (b :: bs) (i + 1) = (if b then 1 else 0) + rank1 bs i := by
  cases b <;> simp [rank1, Nat.add_comm]

theorem rank1_of_length_le (B : List Bool) (i : Nat) (h : B.length ≤ i) :
    rank1 B i = ones B := by
  unfold rank1 ones
  rw [List.take_of_length_le h]

theorem ones_le_length (B : List Bool) : ones B ≤ B.length :=
  List.count_le_length _ _

theorem select1_spec (B : List Bool) :
    ∀ k, 1 ≤ k → k ≤ ones B →
      select1 B k < B.length ∧ B.getD (select1 B k) false = true ∧
        rank1 B (select1 B k) + 1 = k := by
  induction B with
  | nil =>
    intro k h1 h2
    simp [ones] at h2
    omega
  | cons b bs ih =>
    intro k h1 h2
    rw [ones_cons] at h2
    cases b with
    | false =>
      obtain ⟨h3, h4, h5⟩ := ih k h1 (by simpa using h2)
      refine ⟨?_, ?_, ?_⟩
      · simp only [select1, List.length_cons]
        omega
      · simpa [select1] using h4
      · simp only [select1]
        rw [rank1_cons_succ]
        simpa using h5
    | true =>
      by_cases hk : k ≤ 1
      · have hk1 : k = 1 := by omega
        subst hk1
        simp [select1, rank1_zero]
      · have h2x : k - 1 ≤ ones bs := by
          simp only [if_true] at h2
          omega
        obtain ⟨h3, h4, h5⟩ := ih (k - 1) (by omega) h2x
        refine ⟨?_, ?_, ?_⟩
        · simp only [select1, hk, if_false, List.length_cons]
          omega
        · simpa [select1, hk] using h4
        · simp only [select1, hk, if_false]
          rw [rank1_cons_succ]
          simp only [if_true]
          omega

/-! ## Decimal rendering: facts -/

theorem digitChar_isDigit (d : Nat) (h : d < 10) : (Nat.digitChar d).isDigit = true := by
  interval_cases d <;> decide

theorem toDigitsCore_all_digits (fuel : Nat) :
    ∀ (n : Nat) (ds : List Char), (∀ c ∈ ds, c.isDigit = true) →
      ∀ c ∈ Nat.toDigitsCore 10 fuel n ds, c.isDigit = true := by
  induction fuel with
  | zero =>
    intro n ds h c hc
    exact h c (by simpa [Nat.toDigitsCore] using hc)
  | succ f ih =>
    intro n ds h c hc
    have hd : ∀ x ∈ Nat.digitChar (n % 10) :: ds, x.isDigit = true := by
      intro x hx
      rcases List.mem_cons.1 hx with rfl | hx
      · exact digitChar_isDigit _ (Nat.mod_lt _ (by decide))
      · exact h x hx
    rw [Nat.toDigitsCore] at hc
    by_cases h0 : n / 10 = 0
    · rw [if_pos h0] at hc
      exact hd c hc
    · rw [if_neg h0] at hc
      exact ih _ _ hd c hc

theorem toDigitsCore_ne_nil (fuel : Nat) :
    ∀ (n : Nat) (ds : List Char), ds ≠ [] → Nat.toDigitsCore 10 fuel n ds ≠ [] := by
  induction fuel with
  | zero =>
    intro n ds h
    simpa [Nat.toDigitsCore] using h
  | succ f ih =>
    intro n ds _
    rw [Nat.toDigitsCore]
    by_cases h0 : n / 10 = 0
    · rw [if_pos h0]
      exact List.cons_ne_nil _ _
    · rw [if_neg h0]
      exact ih _ _ (List.cons_ne_nil _ _)

theorem decimal_all_digits (n : Nat) : ∀ c ∈ (toString n).data, c.isDigit = true := by
  intro c hc
  exact toDigitsCore_all_digits (n + 1) n [] (by simp) c hc

theorem decimal_ends_in_digit (n : Nat) :
    ∃ (front : List Char) (d : Char), (toString n).data = front ++ [d] ∧ d.isDigit = true := by
  have hne : (toString n).data ≠ [] := by
    show Nat.toDigitsCore 10 (n + 1) n [] ≠ []
    rw [Nat.toDigitsCore]
    by_cases h0 : n / 10 = 0
    · rw [if_pos h0]
      exact List.cons_ne_nil _ _
    · rw [if_neg h0]
      exact toDigitsCore_ne_nil _ _ _ (List.cons_ne_nil _ _)
  rcases List.eq_nil_or_concat (toString n).data with h | ⟨front, d, h⟩
  · exact absurd h hne
  · refine ⟨front, d, by simpa using h, ?_⟩
    apply decimal_all_digits n
    rw [h]
    simp


/-! ## Result emitter -/

theorem decimal_no_newline (n : Nat) : List.count '\n' (toString n).data = 0 := by
  apply List.count_eq_zero.2
  intro h
  exact absurd (decimal_all_digits n _ h) (by decide)

theorem result_line_ends_in_digit (P : Params) (fmt : ℚ → String) (ds : String)
    (rank_ms select_ms : ℚ) (bytes rank_checksum select_checksum : Nat) :
    ∃ (front : List Char) (d : Char),
      (print_result_line P fmt ds rank_ms select_ms bytes rank_checksum select_checksum).data
        = front ++ [d, '\n'] ∧ d.isDigit = true := by
  obtain ⟨front, d, hd, hdig⟩ := decimal_ends_in_digit select_checksum
  have e : "\n".data = ['\n'] := rfl
  have hshape : ∀ pre : List Char, pre ++ (front ++ [d]) ++ ['\n'] = (pre ++ front) ++ [d, '\n'] := by
    intro pre
    simp
  have hdata : ∃ pre : List Char,
      (print_result_line P fmt ds rank_ms select_ms bytes rank_checksum select_checksum).data
        = pre ++ (front ++ [d]) ++ ['\n'] := by
    simp only [print_result_line, String.data_append, hd, e]
    exact ⟨_, rfl⟩
  obtain ⟨pre, hpre⟩ := hdata
  exact ⟨pre ++ front, d, by rw [hpre, hshape], hdig⟩

/-- C1: with the production constants, `print_result_line` writes one text of
the form `RESULT ds=<ds> num_queries=1000000 num_bits=10000000 fill_rate=0.1
rank=<rank_ms> select=<select_ms> space=<bytes> rank_checksum=<rank_checksum>
select_checksum=<select_checksum>` followed by a newline: the literal RESULT and
the nine key=value tokens in this order, joined by single spaces; the character
before the final newline is a decimal digit, so there is no trailing space; and
when neither `ds` nor a rendered double holds a newline, the text is exactly
one line. The stream is taken to render the double `0.1` as `0.1`. -/
theorem print_result_line_grammar (fmt : ℚ → String) (ds : String) (rank_ms select_ms : ℚ)
    (bytes rank_checksum select_checksum : Nat) (hfill : fmt FILL = "0.1") :
    print_result_line production fmt ds rank_ms select_ms bytes rank_checksum select_checksum
        = "RESULT ds=" ++ ds ++ " num_queries=1000000 num_bits=10000000 fill_rate=0.1 rank="
            ++ fmt rank_ms ++ " select=" ++ fmt select_ms ++ " space=" ++ toString bytes
            ++ " rank_checksum=" ++ toString rank_checksum
            ++ " select_checksum=" ++ toString select_checksum ++ "\n"
    ∧ print_result_line production fmt ds rank_ms select_ms bytes rank_checksum select_checksum
        = String.intercalate " "
            ["RESULT", "ds=" ++ ds, "num_queries=1000000", "num_bits=10000000", "fill_rate=0.1",
             "rank=" ++ fmt rank_ms, "select=" ++ fmt select_ms, "space=" ++ toString bytes,
             "rank_checksum=" ++ toString rank_checksum,
             "select_checksum=" ++ toString select_checksum] ++ "\n"
    ∧ (∃ (front : List Char) (d : Char),
        (print_result_line production fmt ds rank_ms select_ms bytes rank_checksum
            select_checksum).data = front ++ [d, '\n'] ∧ d.isDigit = true)
    ∧ ('\n' ∉ ds.data → '\n' ∉ (fmt rank_ms).data → '\n' ∉ (fmt select_ms).data →
        List.count '\n' (print_result_line production fmt ds rank_ms select_ms bytes
            rank_checksum select_checksum).data = 1) := by
  have hq : toString production.QUERIES = "1000000" := by decide
  have hn : toString production.N = "10000000" := by decide
  refine ⟨?_, ?_, result_line_ends_in_digit _ _ _ _ _ _ _ _, ?_⟩
  · apply String.ext
    simp only [print_result_line, hfill, hq, hn, String.data_append, List.append_assoc]
    rfl
  · apply String.ext
    simp only [print_result_line, hfill, hq, hn, String.data_append, List.append_assoc,
      String.intercalate, String.intercalate.go]
    rfl
  · intro h1 h2 h3
    have c1 := List.count_eq_zero.2 h1
    have c2 := List.count_eq_zero.2 h2
    have c3 := List.count_eq_zero.2 h3
    simp only [print_result_line, hfill, hq, hn, String.data_append, List.count_append, c1, c2,
      c3, decimal_no_newline]
    decide

/-- C1, at a concrete input: the line of `sdvector` with both times `0.1` ms. -/
theorem print_result_line_grammar_witness :
    demo_fmt FILL = "0.1" ∧
      List.count '\n' (print_result_line production demo_fmt "sdvector" FILL FILL 0 7 6).data = 1 :=
  have h : demo_fmt FILL = "0.1" := by simp [demo_fmt]
  ⟨h, (print_result_line_grammar demo_fmt "sdvector" FILL FILL 0 7 6 h).2.2.2
    (by decide) (by rw [h]; decide) (by rw [h]; decide)⟩

/-! ## Main -/

theorem is_result_line_print (P : Params) (fmt : ℚ → String) (ds : String)
    (rank_ms select_ms : ℚ) (bytes rank_checksum select_checksum : Nat) :
    is_result_line
      (print_result_line P fmt ds rank_ms select_ms bytes rank_checksum select_checksum) = true := by
  simp [is_result_line, print_result_line, String.data_append]

theorem is_result_line_banner (P : Params) : is_result_line (banner P) = false := by
  simp [is_result_line, banner, String.data_append, List.isPrefixOf]

theorem is_result_line_info (bits : List Bool) : is_result_line (test_sdvec.info bits) = false := by
  simp [is_result_line, test_sdvec.info, String.data_append, List.isPrefixOf]

/-- C3: started with `argc = 1`, `main` returns 0; it calls `gen_bits` once and
then `test_sdvec`, `test_dyn_succ`, `test_bm`, `test_la`, in this order, each
with the sequence `gen_bits` returned; the output is the banner, the
informational line of `test_sdvec`, and the four RESULT lines, so the texts
that are RESULT lines are exactly four, with `ds=sdvector`, `ds=dynsucc`,
`ds=bitmagic`, `ds=la_vector` in this order, and the banner comes first. -/
theorem main_runs_every_driver (E : Env) (P : Params) (argv0 : Option String) :
    (main E P 1 argv0).1 = 0
    ∧ (main E P 1 argv0).2.calls
        = [Call.gen_bits, Call.test_sdvec (gen_bits E P), Call.test_dyn_succ (gen_bits E P),
           Call.test_bm (gen_bits E P), Call.test_la (gen_bits E P)]
    ∧ (main E P 1 argv0).2.out.head? = some ("Starting benchmarks, " ++ toString P.QUERIES ++ " each...\n")
    ∧ (main E P 1 argv0).2.out.length = 6
    ∧ (main E P 1 argv0).2.out.filter is_result_line
        = [print_result_line P E.fmt "sdvector"
             (duration (E.clock 1) (E.clock 0)) (duration (E.clock 3) (E.clock 2)) 0
             (test_sdvec.rank_loop E P (test_sdvec.build E (gen_bits E P))).checksum
             (test_sdvec.select_loop E P (test_sdvec.build E (gen_bits E P)) (gen_bits E P)).checksum,
           print_result_line P E.fmt "dynsucc"
             (duration (E.clock 5) (E.clock 4)) (duration (E.clock 7) (E.clock 6))
             ((test_dyn_succ.build E P (gen_bits E P)).bit_size / 8)
             (test_dyn_succ.rank_loop E P (test_dyn_succ.build E P (gen_bits E P))).checksum
             (test_dyn_succ.select_loop E P (test_dyn_succ.build E P (gen_bits E P))
               (gen_bits E P)).checksum,
           print_result_line P E.fmt "bitmagic"
             (duration (E.clock 9) (E.clock 8)) (duration (E.clock 11) (E.clock 10))
             (test_bm.build E P (gen_bits E P)).memory_used
             (test_bm.rank_loop E P (test_bm.build E P (gen_bits E P))).checksum
             (test_bm.select_loop E P (test_bm.build E P (gen_bits E P)) (gen_bits E P)).checksum,
           print_result_line P E.fmt "la_vector"
             (duration (E.clock 13) (E.clock 12)) (duration (E.clock 15) (E.clock 14))
             (test_la.build E (gen_bits E P)).size_in_bytes
             (test_la.rank_loop E P (test_la.build E (gen_bits E P))).checksum
             (test_la.select_loop E P (test_la.build E (gen_bits E P)) (gen_bits E P)).checksum] := by
  have hm : main E P 1 argv0
      = (0, test_la E P (gen_bits E P) (test_bm E P (gen_bits E P)
          (test_dyn_succ E P (gen_bits E P) (test_sdvec E P (gen_bits E P)
            ((State.init.enter Call.gen_bits).write (banner P)))))) := by
    unfold main
    rw [if_neg (by simp)]
  rw [hm]
  simp only [test_la, test_bm, test_dyn_succ, test_sdvec, test_la_locals_eq, test_bm_locals_eq,
    test_dyn_succ_locals_eq, test_sdvec_locals_eq, State.write, State.enter, State.init,
    Locals.line]
  refine ⟨trivial, rfl, rfl, rfl, ?_⟩
  simp [List.filter, is_result_line_print, is_result_line_banner, is_result_line_info]


/-! ## Drivers: query loops, space and times -/

/-- C6: in every driver, for every stream of sampled values, the rank loop
makes exactly `QUERIES` invocations of the structure's rank and the select loop
exactly `QUERIES` invocations of its select; each recorded value is what the
structure returned for the argument passed, and each checksum, started at 0,
ends as the sum of those values modulo `2 ^ 64`. -/
theorem checksums_sum_native_returns (E : Env) (P : Params) (bits : List Bool) (st : State) :
    Acc.zero.checksum = 0
    ∧ (test_bm.locals E P bits st).1.rank.Sums P.QUERIES (test_bm.build E P bits).rank
    ∧ (test_bm.locals E P bits st).1.select.Sums P.QUERIES (test_bm.build E P bits).select
    ∧ (test_dyn_succ.locals E P bits st).1.rank.Sums P.QUERIES (test_dyn_succ.build E P bits).rank
    ∧ (test_dyn_succ.locals E P bits st).1.select.Sums P.QUERIES
        (test_dyn_succ.build E P bits).select
    ∧ (test_sdvec.locals E P bits st).1.rank.Sums P.QUERIES (test_sdvec.build E bits).rank
    ∧ (test_sdvec.locals E P bits st).1.select.Sums P.QUERIES (test_sdvec.build E bits).select
    ∧ (test_la.locals E P bits st).1.rank.Sums P.QUERIES (test_la.build E bits).rank
    ∧ (test_la.locals E P bits st).1.select.Sums P.QUERIES (test_la.build E bits).select := by
  rw [test_bm_locals_eq, test_dyn_succ_locals_eq, test_sdvec_locals_eq, test_la_locals_eq]
  exact ⟨rfl, query_loop_sums _ _ _, query_loop_sums _ _ _, query_loop_sums _ _ _,
    query_loop_sums _ _ _, query_loop_sums _ _ _, query_loop_sums _ _ _, query_loop_sums _ _ _,
    query_loop_sums _ _ _⟩

/-- C10: read in exact arithmetic, `duration(a, b)` for normalised timestamps is
`1000·(a.tv_sec − b.tv_sec) + (a.tv_nsec − b.tv_nsec)/10^6`, the milliseconds
elapsed from `b` to `a`; it is at least 0 when `a` is not earlier than `b`, it
is 0 when `a = b`, and `duration(a, b) = −duration(b, a)`. With a monotonic
clock the `rank_ms` and `select_ms` of the four drivers, each computed as
`duration(then, now)`, are at least 0. -/
theorem duration_is_elapsed_milliseconds (E : Env) (P : Params) (bits : List Bool) (st : State)
    (a b : Time) (ha : a.normalised) (hb : b.normalised) (hclock : MonotonicClock E.clock) :
    duration a b
        = 1000 * ((a.tv_sec : ℚ) - (b.tv_sec : ℚ)) + ((a.tv_nsec : ℚ) - (b.tv_nsec : ℚ)) / 10 ^ 6
    ∧ (b.le a → 0 ≤ duration a b)
    ∧ (a = b → duration a b = 0)
    ∧ duration a b = - duration b a
    ∧ (0 ≤ (test_bm.locals E P bits st).1.rank_ms ∧ 0 ≤ (test_bm.locals E P bits st).1.select_ms)
    ∧ (0 ≤ (test_dyn_succ.locals E P bits st).1.rank_ms
        ∧ 0 ≤ (test_dyn_succ.locals E P bits st).1.select_ms)
    ∧ (0 ≤ (test_sdvec.locals E P bits st).1.rank_ms
        ∧ 0 ≤ (test_sdvec.locals E P bits st).1.select_ms)
    ∧ (0 ≤ (test_la.locals E P bits st).1.rank_ms
        ∧ 0 ≤ (test_la.locals E P bits st).1.select_ms) := by
  have h1 := duration_clock_nonneg E.clock hclock st.ticks
  have h2 := duration_clock_nonneg E.clock hclock (st.ticks + 2)
  rw [test_bm_locals_eq, test_dyn_succ_locals_eq, test_sdvec_locals_eq, test_la_locals_eq]
  refine ⟨?_, duration_nonneg_of_le a b ha hb, ?_, ?_, ⟨h1, h2⟩, ⟨h1, h2⟩, ⟨h1, h2⟩, ⟨h1, h2⟩⟩
  · unfold duration
    push_cast
    ring
  · intro hab
    subst hab
    simp [duration]
  · unfold duration
    push_cast
    ring


/-- C10, at a concrete input: from 1.999999999 s to 2.000000005 s. -/
theorem duration_is_elapsed_milliseconds_witness :
    (Time.mk 2 5).normalised ∧ (Time.mk 1 999999999).normalised ∧ MonotonicClock demo.clock
      ∧ (Time.mk 1 999999999).le (Time.mk 2 5)
      ∧ 0 ≤ duration (Time.mk 2 5) (Time.mk 1 999999999) :=
  have ha : (Time.mk 2 5).normalised := by unfold Time.normalised; decide
  have hb : (Time.mk 1 999999999).normalised := by unfold Time.normalised; decide
  have hc : MonotonicClock demo.clock := by
    intro k
    simp only [demo, Time.normalised, Time.le]
    omega
  have hle : (Time.mk 1 999999999).le (Time.mk 2 5) := by unfold Time.le; decide
  ⟨ha, hb, hc, hle,
    (duration_is_elapsed_milliseconds demo tiny demo_bits State.init _ _ ha hb hc).2.1 hle⟩

/-! ## The small environment follows the conventions -/

theorem demo_sampler_in_range : SamplerInRange demo_sample := by
  intro lo hi i h
  have hm := Nat.mod_lt (3 * i + 1) (show 0 < hi - lo + 1 by omega)
  unfold demo_sample
  omega

theorem demo_conventions_demo_bits : Conventions demo tiny demo_bits where
  sampler := demo_sampler_in_range
  bm_rank := fun _ => rfl
  bm_select := fun _ _ _ => rfl
  dyn_rank := fun _ _ => rfl
  dyn_select := fun _ _ => rfl
  sd_rank := by
    intro i hi
    have hi8 : i ≤ 8 := hi
    interval_cases i <;> rfl
  sd_select := by
    intro k hk h1
    have hk3 : k ≤ 3 := hk
    interval_cases k <;> rfl
  la_rank := by
    intro i hi
    have hi8 : i ≤ 8 := hi
    interval_cases i <;> rfl
  la_select := by
    intro k hk h1
    have hk3 : k ≤ 3 := hk
    interval_cases k <;> rfl

theorem demo_conventions_zero_bits : Conventions demo tiny zero_bits where
  sampler := demo_sampler_in_range
  bm_rank := fun _ => rfl
  bm_select := fun _ _ _ => rfl
  dyn_rank := fun _ _ => rfl
  dyn_select := fun _ _ => rfl
  sd_rank := by
    intro i hi
    have hi8 : i ≤ 8 := hi
    interval_cases i <;> rfl
  sd_select := by
    intro k hk h1
    have hk0 : k ≤ 0 := hk
    omega
  la_rank := by
    intro i hi
    have hi8 : i ≤ 8 := hi
    interval_cases i <;> rfl
  la_select := by
    intro k hk h1
    have hk0 : k ≤ 0 := hk
    omega


/-! ## Sampling domains under the conventions -/

theorem rank1_length (B : List Bool) : rank1 B B.length = ones B :=
  rank1_of_length_le B _ (Nat.le_refl _)

theorem rank1_length_succ (B : List Bool) : rank1 B (B.length + 1) = ones B :=
  rank1_of_length_le B _ (Nat.le_succ _)

theorem ones_lt_of_length_lt (B : List Bool) (h : B.length < U64) : ones B < U64 :=
  Nat.lt_of_le_of_lt (ones_le_length B) h

theorem half_open_total (rank : Nat → Nat) (B : List Bool) (h : HalfOpenRank rank B) :
    rank B.length = ones B := by
  rw [h _ (Nat.le_refl _), rank1_length]

theorem inclusive_total (rank : Nat → Nat) (B : List Bool) (h : InclusiveRank rank B) :
    rank B.length = ones B := by
  rw [h, rank1_length_succ]

theorem select1_injective (B : List Bool) (k m : Nat) (hk1 : 1 ≤ k) (hk2 : k ≤ ones B)
    (hm1 : 1 ≤ m) (hm2 : m ≤ ones B) (h : select1 B k = select1 B m) : k = m := by
  have a := (select1_spec B k hk1 hk2).2.2
  have b := (select1_spec B m hm1 hm2).2.2
  rw [h] at a
  omega

theorem num_ones_of_total (t m : Nat) (ht : t = m) (h1 : 1 ≤ m) (hlt : m < U64) :
    sub64 t 1 = m - 1 := by
  rw [ht]
  exact sub64_one_of_pos m h1 hlt

theorem draw_in_domain (sample : Nat → Nat → Nat → Nat) (hs : SamplerInRange sample)
    (n m : Nat) (hn : n = m - 1) (h2 : 2 ≤ m) (i : Nat) :
    1 ≤ sample 1 n i ∧ sample 1 n i ≤ m - 1 ∧ sample 1 n i < m := by
  have h := hs 1 n i (by omega)
  omega

theorem one_based_loop_facts (sample : Nat → Nat → Nat → Nat) (hs : SamplerInRange sample)
    (select : Nat → Nat) (B : List Bool) (hsel : OneBasedSelect select B)
    (n : Nat) (hn : n = ones B - 1) (h2 : 2 ≤ ones B) (q : Nat) :
    ∀ c ∈ (for_loop q (fun i a => Acc.query a select (sample 1 n i)) Acc.zero).calls,
      1 ≤ c.1 ∧ c.1 < ones B ∧ c.2 = select1 B c.1 := by
  intro c hc
  rw [query_loop_calls] at hc
  obtain ⟨i, -, rfl⟩ := List.mem_map.1 hc
  have h := draw_in_domain sample hs n (ones B) hn h2 i
  exact ⟨h.1, h.2.2, hsel _ (by omega) h.1⟩

theorem zero_based_loop_facts (sample : Nat → Nat → Nat → Nat) (hs : SamplerInRange sample)
    (select : Nat → Nat) (B : List Bool) (hsel : ZeroBasedSelect select B)
    (n : Nat) (hn : n = ones B - 1) (h2 : 2 ≤ ones B) (hlt : ones B < U64) (q : Nat) :
    ∀ c ∈ (for_loop q (fun i a => Acc.query a select (sub64 (sample 1 n i) 1)) Acc.zero).calls,
      c.1 + 1 < ones B ∧ c.2 = select1 B (c.1 + 1) := by
  intro c hc
  rw [query_loop_calls] at hc
  obtain ⟨i, -, rfl⟩ := List.mem_map.1 hc
  have h := draw_in_domain sample hs n (ones B) hn h2 i
  have e : sub64 (sample 1 n i) 1 = sample 1 n i - 1 :=
    sub64_one_of_pos _ h.1 (by omega)
  simp only [e]
  exact ⟨by omega, hsel _ (by omega)⟩

theorem select1_facts (B : List Bool) (k p : Nat) (h1 : 1 ≤ k) (h2 : k < ones B)
    (hp : p = select1 B k) :
    k ≤ ones B ∧ p < B.length ∧ B.getD p false = true ∧ rank1 B p + 1 = k
      ∧ p ≠ select1 B (ones B) := by
  subst hp
  obtain ⟨a, b, c⟩ := select1_spec B k h1 (by omega)
  refine ⟨by omega, a, b, c, ?_⟩
  intro h
  have := select1_injective B k (ones B) h1 (by omega) (by omega) (Nat.le_refl _) h
  omega

/-- C4: in each driver the select sampler is built on `[1, num_ones]` with
`num_ones = rank(bits.size()) − 1`, a value that does not depend on the
iteration; under the
conventions of the libraries, for every `B` with at least two set bits,
`num_ones` is `rank₁(N) − 1`, every drawn rank `k` satisfies
`1 ≤ k ≤ rank₁(N) − 1`, and no position a select loop obtains is the position of
the last set bit of `B`. -/
theorem select_sampler_excludes_last_one (E : Env) (P : Params) (B : List Bool)
    (hc : Conventions E P B) (hlen : B.length < U64) (h2 : 2 ≤ ones B) (i : Nat) :
    ((∀ j, test_bm.select_gen E (test_bm.build E P B) B j
          = E.sample 1 (sub64 ((test_bm.build E P B).rank B.length) 1) j)
      ∧ test_bm.num_ones (test_bm.build E P B) B = rank1 B B.length - 1
      ∧ 1 ≤ test_bm.select_gen E (test_bm.build E P B) B i
      ∧ test_bm.select_gen E (test_bm.build E P B) B i ≤ rank1 B B.length - 1
      ∧ ∀ c ∈ (test_bm.select_loop E P (test_bm.build E P B) B).calls,
          c.2 ≠ select1 B (ones B))
    ∧ ((∀ j, test_dyn_succ.select_gen E (test_dyn_succ.build E P B) B j
          = E.sample 1 (sub64 ((test_dyn_succ.build E P B).rank B.length) 1) j)
      ∧ test_dyn_succ.num_ones (test_dyn_succ.build E P B) B = rank1 B B.length - 1
      ∧ 1 ≤ test_dyn_succ.select_gen E (test_dyn_succ.build E P B) B i
      ∧ test_dyn_succ.select_gen E (test_dyn_succ.build E P B) B i ≤ rank1 B B.length - 1
      ∧ ∀ c ∈ (test_dyn_succ.select_loop E P (test_dyn_succ.build E P B) B).calls,
          c.2 ≠ select1 B (ones B))
    ∧ ((∀ j, test_sdvec.select_gen E (test_sdvec.build E B) B j
          = E.sample 1 (sub64 ((test_sdvec.build E B).rank B.length) 1) j)
      ∧ test_sdvec.num_ones (test_sdvec.build E B) B = rank1 B B.length - 1
      ∧ 1 ≤ test_sdvec.select_gen E (test_sdvec.build E B) B i
      ∧ test_sdvec.select_gen E (test_sdvec.build E B) B i ≤ rank1 B B.length - 1
      ∧ ∀ c ∈ (test_sdvec.select_loop E P (test_sdvec.build E B) B).calls,
          c.2 ≠ select1 B (ones B))
    ∧ ((∀ j, test_la.select_gen E (test_la.build E B) B j
          = E.sample 1 (sub64 ((test_la.build E B).rank B.length) 1) j)
      ∧ test_la.num_ones (test_la.build E B) B = rank1 B B.length - 1
      ∧ 1 ≤ test_la.select_gen E (test_la.build E B) B i
      ∧ test_la.select_gen E (test_la.build E B) B i ≤ rank1 B B.length - 1
      ∧ ∀ c ∈ (test_la.select_loop E P (test_la.build E B) B).calls,
          c.2 ≠ select1 B (ones B)) := by
  have hm := ones_lt_of_length_lt B hlen
  have nbm : test_bm.num_ones (test_bm.build E P B) B = ones B - 1 :=
    num_ones_of_total _ _ (inclusive_total _ B hc.bm_rank) (by omega) hm
  have ndyn : test_dyn_succ.num_ones (test_dyn_succ.build E P B) B = ones B - 1 :=
    num_ones_of_total _ _ (half_open_total _ B hc.dyn_rank) (by omega) hm
  have nsd : test_sdvec.num_ones (test_sdvec.build E B) B = ones B - 1 :=
    num_ones_of_total _ _ (half_open_total _ B hc.sd_rank) (by omega) hm
  have nla : test_la.num_ones (test_la.build E B) B = ones B - 1 :=
    num_ones_of_total _ _ (half_open_total _ B hc.la_rank) (by omega) hm
  rw [rank1_length]
  refine ⟨⟨fun _ => rfl, nbm, ?_, ?_, ?_⟩, ⟨fun _ => rfl, ndyn, ?_, ?_, ?_⟩,
    ⟨fun _ => rfl, nsd, ?_, ?_, ?_⟩, ⟨fun _ => rfl, nla, ?_, ?_, ?_⟩⟩
  · exact (draw_in_domain E.sample hc.sampler _ _ nbm h2 i).1
  · exact (draw_in_domain E.sample hc.sampler _ _ nbm h2 i).2.1
  · intro c hcm
    obtain ⟨a, b, d⟩ := one_based_loop_facts E.sample hc.sampler _ B hc.bm_select _ nbm h2 _ c hcm
    exact (select1_facts B c.1 c.2 a b d).2.2.2.2
  · exact (draw_in_domain E.sample hc.sampler _ _ ndyn h2 i).1
  · exact (draw_in_domain E.sample hc.sampler _ _ ndyn h2 i).2.1
  · intro c hcm
    obtain ⟨b, d⟩ :=
      zero_based_loop_facts E.sample hc.sampler _ B hc.dyn_select _ ndyn h2 hm _ c hcm
    exact (select1_facts B (c.1 + 1) c.2 (by omega) b d).2.2.2.2
  · exact (draw_in_domain E.sample hc.sampler _ _ nsd h2 i).1
  · exact (draw_in_domain E.sample hc.sampler _ _ nsd h2 i).2.1
  · intro c hcm
    obtain ⟨a, b, d⟩ := one_based_loop_facts E.sample hc.sampler _ B hc.sd_select _ nsd h2 _ c hcm
    exact (select1_facts B c.1 c.2 a b d).2.2.2.2
  · exact (draw_in_domain E.sample hc.sampler _ _ nla h2 i).1
  · exact (draw_in_domain E.sample hc.sampler _ _ nla h2 i).2.1
  · intro c hcm
    obtain ⟨a, b, d⟩ := one_based_loop_facts E.sample hc.sampler _ B hc.la_select _ nla h2 _ c hcm
    exact (select1_facts B c.1 c.2 a b d).2.2.2.2

/-- C4, at a concrete input: the sequence `1001 0010` has three set bits, and
the first draw of `test_bm` is 1 or 2. -/
theorem select_sampler_excludes_last_one_witness :
    Conventions demo tiny demo_bits ∧ demo_bits.length < U64 ∧ 2 ≤ ones demo_bits
      ∧ 1 ≤ test_bm.select_gen demo (test_bm.build demo tiny demo_bits) demo_bits 0
      ∧ test_bm.select_gen demo (test_bm.build demo tiny demo_bits) demo_bits 0
          ≤ rank1 demo_bits demo_bits.length - 1 :=
  ⟨demo_conventions_demo_bits, by decide, by decide,
    (select_sampler_excludes_last_one demo tiny demo_bits demo_conventions_demo_bits
      (by decide) (by decide) 0).1.2.2.1,
    (select_sampler_excludes_last_one demo tiny demo_bits demo_conventions_demo_bits
      (by decide) (by decide) 0).1.2.2.2.1⟩


/-- C5, refuted at a concrete input: on eight clear bits every structure of the
small environment reports `rank(N) = 0`, the value `num_ones` of each driver is
`2 ^ 64 − 1`, and the rank `k = 1` lies in `[1, num_ones]`. -/
theorem domain_without_ones_is_not_empty :
    ones zero_bits = 0 ∧ Conventions demo tiny zero_bits
    ∧ test_bm.num_ones (test_bm.build demo tiny zero_bits) zero_bits = 18446744073709551615
    ∧ ¬ (∀ k, ¬ (1 ≤ k ∧ k ≤ test_bm.num_ones (test_bm.build demo tiny zero_bits) zero_bits))
    ∧ ¬ (∀ k, ¬ (1 ≤ k ∧
          k ≤ test_dyn_succ.num_ones (test_dyn_succ.build demo tiny zero_bits) zero_bits))
    ∧ ¬ (∀ k, ¬ (1 ≤ k ∧ k ≤ test_sdvec.num_ones (test_sdvec.build demo zero_bits) zero_bits))
    ∧ ¬ (∀ k, ¬ (1 ≤ k ∧ k ≤ test_la.num_ones (test_la.build demo zero_bits) zero_bits)) :=
  ⟨by decide, demo_conventions_zero_bits, by decide,
    fun h => h 1 (by decide), fun h => h 1 (by decide), fun h => h 1 (by decide),
    fun h => h 1 (by decide)⟩

/-- C5, amended: for every `B` without a set bit, under the conventions of the
libraries, the unsigned value `num_ones = rank(N) − 1` wraps to `2 ^ 64 − 1` in
each of the four drivers, so the sample domain `[1, num_ones]` holds every `k`
with `1 ≤ k < 2 ^ 64` and is not empty. -/
theorem domain_without_ones (E : Env) (P : Params) (B : List Bool) (hc : Conventions E P B)
    (h0 : ones B = 0) (k : Nat) :
    test_bm.num_ones (test_bm.build E P B) B = 2 ^ 64 - 1
    ∧ test_dyn_succ.num_ones (test_dyn_succ.build E P B) B = 2 ^ 64 - 1
    ∧ test_sdvec.num_ones (test_sdvec.build E B) B = 2 ^ 64 - 1
    ∧ test_la.num_ones (test_la.build E B) B = 2 ^ 64 - 1
    ∧ ((1 ≤ k ∧ k ≤ test_bm.num_ones (test_bm.build E P B) B) ↔ (1 ≤ k ∧ k < 2 ^ 64))
    ∧ ((1 ≤ k ∧ k ≤ test_dyn_succ.num_ones (test_dyn_succ.build E P B) B)
        ↔ (1 ≤ k ∧ k < 2 ^ 64))
    ∧ ((1 ≤ k ∧ k ≤ test_sdvec.num_ones (test_sdvec.build E B) B) ↔ (1 ≤ k ∧ k < 2 ^ 64))
    ∧ ((1 ≤ k ∧ k ≤ test_la.num_ones (test_la.build E B) B) ↔ (1 ≤ k ∧ k < 2 ^ 64)) := by
  have nbm : test_bm.num_ones (test_bm.build E P B) B = 2 ^ 64 - 1 := by
    unfold test_bm.num_ones
    rw [inclusive_total _ B hc.bm_rank, h0]
    exact sub64_zero_one
  have ndyn : test_dyn_succ.num_ones (test_dyn_succ.build E P B) B = 2 ^ 64 - 1 := by
    unfold test_dyn_succ.num_ones
    rw [half_open_total _ B hc.dyn_rank, h0]
    exact sub64_zero_one
  have nsd : test_sdvec.num_ones (test_sdvec.build E B) B = 2 ^ 64 - 1 := by
    unfold test_sdvec.num_ones
    rw [half_open_total _ B hc.sd_rank, h0]
    exact sub64_zero_one
  have nla : test_la.num_ones (test_la.build E B) B = 2 ^ 64 - 1 := by
    unfold test_la.num_ones
    rw [half_open_total _ B hc.la_rank, h0]
    exact sub64_zero_one
  rw [nbm, ndyn, nsd, nla]
  refine ⟨rfl, rfl, rfl, rfl, ?_, ?_, ?_, ?_⟩ <;> omega

/-- C5 amended, at a concrete input: eight clear bits, and the rank `k = 1`. -/
theorem domain_without_ones_witness :
    Conventions demo tiny zero_bits ∧ ones zero_bits = 0
      ∧ test_sdvec.num_ones (test_sdvec.build demo zero_bits) zero_bits = 2 ^ 64 - 1 :=
  ⟨demo_conventions_zero_bits, by decide,
    (domain_without_ones demo tiny zero_bits demo_conventions_zero_bits (by decide) 1).2.2.1⟩

/-! ## Rank arguments -/

theorem rank_draw_le (E : Env) (P : Params) (hs : SamplerInRange E.sample) (hpos : 0 < P.N)
    (hlt : P.N < U64) (i : Nat) : E.sample 0 (sub64 P.N 1) i ≤ P.N - 1 := by
  rw [sub64_one_of_pos P.N hpos hlt]
  exact (hs 0 _ i (Nat.zero_le _)).2

theorem half_open_rank_loop (E : Env) (P : Params) (B : List Bool) (rank : Nat → Nat)
    (hs : SamplerInRange E.sample) (hr : HalfOpenRank rank B) (hN : B.length = P.N)
    (hpos : 0 < P.N) (hlt : P.N < U64) :
    for_loop P.QUERIES (fun i a => Acc.query a rank (add64 (E.sample 0 (sub64 P.N 1) i) 1))
        Acc.zero
      = for_loop P.QUERIES
          (fun i a => Acc.query a (fun x => rank1 B x) (E.sample 0 (sub64 P.N 1) i + 1))
          Acc.zero := by
  have hbody : ∀ i, ∀ a : Acc,
      Acc.query a rank (add64 (E.sample 0 (sub64 P.N 1) i) 1)
        = Acc.query a (fun x => rank1 B x) (E.sample 0 (sub64 P.N 1) i + 1) := by
    intro i a
    have h := rank_draw_le E P hs hpos hlt i
    have e : add64 (E.sample 0 (sub64 P.N 1) i) 1 = E.sample 0 (sub64 P.N 1) i + 1 :=
      add64_one_of_lt _ (by omega)
    rw [e]
    unfold Acc.query
    rw [hr _ (by omega)]
  simp only [hbody]

theorem inclusive_rank_loop (E : Env) (P : Params) (B : List Bool) (rank : Nat → Nat)
    (hr : InclusiveRank rank B) :
    for_loop P.QUERIES (fun i a => Acc.query a rank (E.sample 0 (sub64 P.N 1) i)) Acc.zero
      = for_loop P.QUERIES
          (fun i a => Acc.query a (fun x => rank1 B (x + 1)) (E.sample 0 (sub64 P.N 1) i))
          Acc.zero := by
  have hbody : ∀ i, ∀ a : Acc,
      Acc.query a rank (E.sample 0 (sub64 P.N 1) i)
        = Acc.query a (fun x => rank1 B (x + 1)) (E.sample 0 (sub64 P.N 1) i) := by
    intro i a
    unfold Acc.query
    rw [hr]
  simp only [hbody]


/-- C8: for every `B` of `N` bits, under the conventions of the libraries, each
index `i` drawn for a rank query lies in `[0, N − 1]`; `test_dyn_succ`,
`test_sdvec` and `test_la` pass `i + 1`, which lies in `[1, N]`, `test_bm`
passes `i`; in all four the value added to `rank_checksum` is the number of set
bits of `B` at positions `0..i`; the four drivers draw the same indices and end
with the same `rank_checksum`. -/
theorem rank_checksums_agree (E : Env) (P : Params) (B : List Bool) (hc : Conventions E P B)
    (hN : B.length = P.N) (hpos : 0 < P.N) (hlt : P.N < U64) :
    (∀ i, test_bm.rank_gen E P i ≤ P.N - 1
        ∧ test_dyn_succ.rank_gen E P i = test_bm.rank_gen E P i
        ∧ test_sdvec.rank_gen E P i = test_bm.rank_gen E P i
        ∧ test_la.rank_gen E P i = test_bm.rank_gen E P i
        ∧ 1 ≤ test_bm.rank_gen E P i + 1 ∧ test_bm.rank_gen E P i + 1 ≤ P.N)
    ∧ (test_bm.rank_loop E P (test_bm.build E P B)).calls
        = (List.range P.QUERIES).map
            (fun j => (test_bm.rank_gen E P j, rank1 B (test_bm.rank_gen E P j + 1)))
    ∧ (test_dyn_succ.rank_loop E P (test_dyn_succ.build E P B)).calls
        = (List.range P.QUERIES).map
            (fun j => (test_dyn_succ.rank_gen E P j + 1, rank1 B (test_dyn_succ.rank_gen E P j + 1)))
    ∧ (test_sdvec.rank_loop E P (test_sdvec.build E B)).calls
        = (List.range P.QUERIES).map
            (fun j => (test_sdvec.rank_gen E P j + 1, rank1 B (test_sdvec.rank_gen E P j + 1)))
    ∧ (test_la.rank_loop E P (test_la.build E B)).calls
        = (List.range P.QUERIES).map
            (fun j => (test_la.rank_gen E P j + 1, rank1 B (test_la.rank_gen E P j + 1)))
    ∧ (test_dyn_succ.rank_loop E P (test_dyn_succ.build E P B)).checksum
        = (test_bm.rank_loop E P (test_bm.build E P B)).checksum
    ∧ (test_sdvec.rank_loop E P (test_sdvec.build E B)).checksum
        = (test_bm.rank_loop E P (test_bm.build E P B)).checksum
    ∧ (test_la.rank_loop E P (test_la.build E B)).checksum
        = (test_bm.rank_loop E P (test_bm.build E P B)).checksum := by
  have hbm := inclusive_rank_loop E P B _ hc.bm_rank
  have hdyn := half_open_rank_loop E P B _ hc.sampler hc.dyn_rank hN hpos hlt
  have hsd := half_open_rank_loop E P B _ hc.sampler hc.sd_rank hN hpos hlt
  have hla := half_open_rank_loop E P B _ hc.sampler hc.la_rank hN hpos hlt
  unfold test_bm.rank_loop test_dyn_succ.rank_loop test_sdvec.rank_loop test_la.rank_loop
  unfold test_bm.rank_gen test_dyn_succ.rank_gen test_sdvec.rank_gen test_la.rank_gen
  rw [hbm, hdyn, hsd, hla]
  refine ⟨?_, ?_, ?_, ?_, ?_, ?_, ?_, ?_⟩
  · intro i
    have h := rank_draw_le E P hc.sampler hpos hlt i
    exact ⟨h, rfl, rfl, rfl, by omega, by omega⟩
  · rw [query_loop_calls]
  · rw [query_loop_calls]
  · rw [query_loop_calls]
  · rw [query_loop_calls]
  · rw [query_loop_checksum, query_loop_checksum]
  · rw [query_loop_checksum, query_loop_checksum]
  · rw [query_loop_checksum, query_loop_checksum]

/-- C8, at a concrete input: on `1001 0010` with four queries the rank
checksums of `test_dyn_succ` and `test_bm` coincide. -/
theorem rank_checksums_agree_witness :
    Conventions demo tiny demo_bits ∧ demo_bits.length = tiny.N ∧ 0 < tiny.N ∧ tiny.N < U64
      ∧ (test_dyn_succ.rank_loop demo tiny (test_dyn_succ.build demo tiny demo_bits)).checksum
          = (test_bm.rank_loop demo tiny (test_bm.build demo tiny demo_bits)).checksum :=
  ⟨demo_conventions_demo_bits, by decide, by decide, by decide,
    (rank_checksums_agree demo tiny demo_bits demo_conventions_demo_bits (by decide) (by decide)
      (by decide)).2.2.2.2.2.1⟩

/-- C9: for every `B` with at least two set bits, under the conventions of the
libraries, the arguments handed to select are the drawn ranks `k` in `test_bm`,
`test_sdvec`, `test_la` and `k − 1` in `test_dyn_succ`, where `k ≥ 1` so the
subtraction does not wrap; every argument lies in the domain of its select
(`[1, m]`, and `[0, m − 1]` for `test_dyn_succ`), and the position `p` added to
`select_checksum` satisfies `B[p] = 1` and `rank₁(p) + 1 = k`. -/
theorem select_arguments_valid (E : Env) (P : Params) (B : List Bool) (hc : Conventions E P B)
    (hlen : B.length < U64) (h2 : 2 ≤ ones B) :
    ((test_bm.select_loop E P (test_bm.build E P B) B).calls
        = (List.range P.QUERIES).map
            (fun i => (test_bm.select_gen E (test_bm.build E P B) B i,
              (test_bm.build E P B).select (test_bm.select_gen E (test_bm.build E P B) B i)))
      ∧ ∀ c ∈ (test_bm.select_loop E P (test_bm.build E P B) B).calls,
          1 ≤ c.1 ∧ c.1 ≤ ones B ∧ c.2 < B.length ∧ B.getD c.2 false = true
            ∧ rank1 B c.2 + 1 = c.1)
    ∧ ((test_sdvec.select_loop E P (test_sdvec.build E B) B).calls
        = (List.range P.QUERIES).map
            (fun i => (test_sdvec.select_gen E (test_sdvec.build E B) B i,
              (test_sdvec.build E B).select (test_sdvec.select_gen E (test_sdvec.build E B) B i)))
      ∧ ∀ c ∈ (test_sdvec.select_loop E P (test_sdvec.build E B) B).calls,
          1 ≤ c.1 ∧ c.1 ≤ ones B ∧ c.2 < B.length ∧ B.getD c.2 false = true
            ∧ rank1 B c.2 + 1 = c.1)
    ∧ ((test_la.select_loop E P (test_la.build E B) B).calls
        = (List.range P.QUERIES).map
            (fun i => (test_la.select_gen E (test_la.build E B) B i,
              (test_la.build E B).select (test_la.select_gen E (test_la.build E B) B i)))
      ∧ ∀ c ∈ (test_la.select_loop E P (test_la.build E B) B).calls,
          1 ≤ c.1 ∧ c.1 ≤ ones B ∧ c.2 < B.length ∧ B.getD c.2 false = true
            ∧ rank1 B c.2 + 1 = c.1)
    ∧ ((∀ i, 1 ≤ test_dyn_succ.select_gen E (test_dyn_succ.build E P B) B i
          ∧ sub64 (test_dyn_succ.select_gen E (test_dyn_succ.build E P B) B i) 1 + 1
              = test_dyn_succ.select_gen E (test_dyn_succ.build E P B) B i)
      ∧ (test_dyn_succ.select_loop E P (test_dyn_succ.build E P B) B).calls
          = (List.range P.QUERIES).map
              (fun i => (test_dyn_succ.select_gen E (test_dyn_succ.build E P B) B i - 1,
                (test_dyn_succ.build E P B).select
                  (test_dyn_succ.select_gen E (test_dyn_succ.build E P B) B i - 1)))
      ∧ ∀ c ∈ (test_dyn_succ.select_loop E P (test_dyn_succ.build E P B) B).calls,
          c.1 < ones B ∧ c.2 < B.length ∧ B.getD c.2 false = true
            ∧ rank1 B c.2 + 1 = c.1 + 1) := by
  have hm := ones_lt_of_length_lt B hlen
  have nbm : test_bm.num_ones (test_bm.build E P B) B = ones B - 1 :=
    num_ones_of_total _ _ (inclusive_total _ B hc.bm_rank) (by omega) hm
  have ndyn : test_dyn_succ.num_ones (test_dyn_succ.build E P B) B = ones B - 1 :=
    num_ones_of_total _ _ (half_open_total _ B hc.dyn_rank) (by omega) hm
  have nsd : test_sdvec.num_ones (test_sdvec.build E B) B = ones B - 1 :=
    num_ones_of_total _ _ (half_open_total _ B hc.sd_rank) (by omega) hm
  have nla : test_la.num_ones (test_la.build E B) B = ones B - 1 :=
    num_ones_of_total _ _ (half_open_total _ B hc.la_rank) (by omega) hm
  have hdraw : ∀ i, 1 ≤ test_dyn_succ.select_gen E (test_dyn_succ.build E P B) B i
      ∧ test_dyn_succ.select_gen E (test_dyn_succ.build E P B) B i < ones B := by
    intro i
    have h := draw_in_domain E.sample hc.sampler _ _ ndyn h2 i
    exact ⟨h.1, h.2.2⟩
  have hsub : ∀ i, sub64 (test_dyn_succ.select_gen E (test_dyn_succ.build E P B) B i) 1
      = test_dyn_succ.select_gen E (test_dyn_succ.build E P B) B i - 1 := by
    intro i
    exact sub64_one_of_pos _ (hdraw i).1 (by have := (hdraw i).2; omega)
  refine ⟨⟨?_, ?_⟩, ⟨?_, ?_⟩, ⟨?_, ?_⟩, ⟨?_, ?_, ?_⟩⟩
  · unfold test_bm.select_loop
    rw [query_loop_calls]
  · intro c hcm
    obtain ⟨a, b, d⟩ := one_based_loop_facts E.sample hc.sampler _ B hc.bm_select _ nbm h2 _ c hcm
    obtain ⟨f1, f2, f3, f4, -⟩ := select1_facts B c.1 c.2 a b d
    exact ⟨a, f1, f2, f3, f4⟩
  · unfold test_sdvec.select_loop
    rw [query_loop_calls]
  · intro c hcm
    obtain ⟨a, b, d⟩ := one_based_loop_facts E.sample hc.sampler _ B hc.sd_select _ nsd h2 _ c hcm
    obtain ⟨f1, f2, f3, f4, -⟩ := select1_facts B c.1 c.2 a b d
    exact ⟨a, f1, f2, f3, f4⟩
  · unfold test_la.select_loop
    rw [query_loop_calls]
  · intro c hcm
    obtain ⟨a, b, d⟩ := one_based_loop_facts E.sample hc.sampler _ B hc.la_select _ nla h2 _ c hcm
    obtain ⟨f1, f2, f3, f4, -⟩ := select1_facts B c.1 c.2 a b d
    exact ⟨a, f1, f2, f3, f4⟩
  · intro i
    have h := hdraw i
    rw [hsub i]
    exact ⟨h.1, by omega⟩
  · unfold test_dyn_succ.select_loop
    rw [query_loop_calls]
    refine List.map_congr_left (fun i _ => ?_)
    rw [hsub i]
  · intro c hcm
    obtain ⟨b, d⟩ :=
      zero_based_loop_facts E.sample hc.sampler _ B hc.dyn_select _ ndyn h2 hm _ c hcm
    obtain ⟨-, f2, f3, f4, -⟩ := select1_facts B (c.1 + 1) c.2 (by omega) b d
    exact ⟨by omega, f2, f3, f4⟩

/-- C9, at a concrete input: on `1001 0010` the first draw of `test_dyn_succ`
is at least 1. -/
theorem select_arguments_valid_witness :
    Conventions demo tiny demo_bits ∧ demo_bits.length < U64 ∧ 2 ≤ ones demo_bits
      ∧ 1 ≤ test_dyn_succ.select_gen demo (test_dyn_succ.build demo tiny demo_bits) demo_bits 0 :=
  ⟨demo_conventions_demo_bits, by decide, by decide,
    ((select_arguments_valid demo tiny demo_bits demo_conventions_demo_bits (by decide)
      (by decide)).2.2.2.1 0).1⟩

end Bvtest
